import Mathlib

/-!
Verification of the agentic-commerce platform: a shallow embedding of the
Next.js frontend pages found in the repository together with a model of the
orchestration hub described by the specification (cache, health monitor,
durable queue and replayer, tracing, handoff coordinator), whose backend
implementation is not part of the checked-in sources.
-/

namespace Frontend

/-- A JSON value, as manipulated by the frontend after response.json().
Objects are association lists of fields in insertion order; a missing field
access yields null (modelling the undefined of the runtime). -/
inductive Json where
  | null : Json
  | str (s : String) : Json
  | num (n : Int) : Json
  | bool (b : Bool) : Json
  | arr (xs : List Json) : Json
  | obj (fs : List (String × Json)) : Json

/-- First binding of key k in an association list of JSON object fields. -/
def lookupKey (fs : List (String × Json)) (k : String) : Option Json :=
  match fs with
  | [] => none
  | (k', v) :: t => if k' = k then some v else lookupKey t k

/-- Field access j.k of the runtime: defined on objects, null elsewhere. -/
def Json.getField (j : Json) (k : String) : Json :=
  match j with
  | .obj fs => match lookupKey fs k with
    | some v => v
    | none => .null
  | _ => .null

/-- The runtime spread-override of an object literal, as in the expression
written with three dots, object o and then field k set to v: an existing key k
is overridden in place keeping its position, a fresh key is appended at the
end (object keys are unique at the runtime, so replacing the first binding is
the spread-override semantics). -/
def setKey : List (String × Json) → String → Json → List (String × Json)
  | [], k, v => [(k, v)]
  | (k', v') :: t, k, v =>
    if k' = k then (k, v) :: t else (k', v') :: setKey t k v

/-- Field list of a JSON object; a non-object contributes no fields (the
sales-report page only spreads and enumerates objects here). -/
def jsonEntries (j : Json) : List (String × Json) :=
  match j with
  | .obj fs => fs
  | _ => []

/-- One product_summary entry as rewritten by fetchReport in SalesReportPage:
the backend item's quantity field becomes total_quantity and its revenue
field becomes total_sales. -/
def formatSummaryItem (item : Json) : Json :=
  .obj [("total_quantity", item.getField "quantity"),
        ("total_sales", item.getField "revenue")]

/-- The report field of the admin sales-report response as received by
SalesReportPage: either a JSON string (the page then applies the runtime JSON
parse; the constructor carries the value that parse yields) or an
already-parsed value. -/
inductive ReportField where
  | asString (raw : String) (parseResult : Json)
  | asObject (value : Json)

/-- The local value named parsed in fetchReport: the parse result of a string
report field, or the report field itself. -/
def ReportField.parsed : ReportField → Json
  | .asString _ p => p
  | .asObject v => v

/-- The report value stored by setReport in fetchReport of SalesReportPage:
spread of parsed with data replaced by the spread of parsed.data whose
product_summary entries are rewritten by formatSummaryItem. -/
def fetchReport (rf : ReportField) : Json :=
  let parsed := rf.parsed
  let d := parsed.getField "data"
  let mapped := Json.obj
    ((jsonEntries (d.getField "product_summary")).map
      (fun p => (p.1, formatSummaryItem p.2)))
  let formattedData := Json.obj (setKey (jsonEntries d) "product_summary" mapped)
  Json.obj (setKey (jsonEntries parsed) "data" formattedData)

/-- Observable action performed by a page handler. recordSpan is the action of
emitting a trace Span with the given outcome; the frontend pages have no call
site producing it. -/
inductive Effect where
  | consoleError : Effect
  | clearError : Effect
  | setError (msg : String) : Effect
  | toastError (msg : String) : Effect
  | setCampaignsVal (cs : Json) : Effect
  | setReportVal (v : Json) : Effect
  | setLoading (b : Bool) : Effect
  | recordSpan (outcome : String) : Effect

/-- Whether an effect records a trace Span. -/
def Effect.isSpanRecord : Effect → Bool
  | .recordSpan _ => true
  | _ => false

/-- Number of Span-recording effects in a handler run. -/
def spanCount (es : List Effect) : Nat :=
  (es.filter Effect.isSpanRecord).length

/-- Outcome of the awaited fetch plus res.json() in fetchCampaigns: a parsed
JSON body, or a raised exception (network failure or invalid body). -/
inductive FetchOutcome where
  | json (data : Json) : FetchOutcome
  | thrown : FetchOutcome

/-- The status check data.status === "success" of fetchCampaigns. -/
def isSuccessStatus (data : Json) : Bool :=
  match data.getField "status" with
  | .str s => s = "success"
  | _ => false

/-- Effects of one run of fetchCampaigns in MarketingCampaignsPage: set
loading and clear the error, then either store the campaigns (status
success), set the fetch-failure error, or, when the awaited calls throw, log
to the console and set the network error; finally clear loading. -/
def fetchCampaignsEffects (r : FetchOutcome) : List Effect :=
  [.setLoading true, .clearError] ++
  (match r with
   | .json data =>
     if isSuccessStatus data then [.setCampaignsVal (data.getField "campaigns")]
     else [.setError "fetch_fail"]
   | .thrown => [.consoleError, .setError "network_error"]) ++
  [.setLoading false]

/-- Outcome of the awaited fetch plus res.json() in fetchReport of
SalesReportPage: a body whose report field is classified as in ReportField,
or a raised exception. -/
inductive ReportFetchOutcome where
  | json (rf : ReportField) : ReportFetchOutcome
  | thrown : ReportFetchOutcome

/-- Effects of one run of fetchReport in SalesReportPage: store the formatted
report on success; on a raised exception log to the console, set the network
error and raise an error toast; finally clear loading. -/
def fetchReportEffects (r : ReportFetchOutcome) : List Effect :=
  (match r with
   | .json rf => [.setReportVal (fetchReport rf)]
   | .thrown => [.consoleError, .setError "network_error",
                 .toastError "network_error"]) ++
  [.setLoading false]

/-- Form state of the AddProduct page; image holds the selected file,
identified by a number, when one is present. -/
structure FormState where
  name : String
  price : String
  stock : String
  category : String
  stitching_type : String
  color : String
  description : String
  image : Option Nat
deriving DecidableEq

/-- The initial all-empty form the AddProduct page starts from and resets to
after a successful upload. -/
def initialForm : FormState :=
  ⟨"", "", "", "", "", "", "", none⟩

/-- Result of the POST to the products endpoint in handleSubmit: an HTTP-ok
response, a non-ok response, or a raised exception. -/
inductive SubmitResponse where
  | ok : SubmitResponse
  | httpError : SubmitResponse
  | networkError : SubmitResponse
deriving DecidableEq

/-- One run of handleSubmit of the AddProduct page: the guard rejects an
empty name, an empty price or an absent image (runtime falsiness) without
sending the request; otherwise the POST is sent and the form is reset to
initialForm exactly when the response is HTTP-ok. Returns whether the POST
was performed and the resulting form state. -/
def handleSubmit (form : FormState) (resp : SubmitResponse) :
    Bool × FormState :=
  if form.name = "" ∨ form.price = "" ∨ form.image = none then
    (false, form)
  else
    match resp with
    | .ok => (true, initialForm)
    | .httpError => (true, form)
    | .networkError => (true, form)

end Frontend

namespace Hub

/-- Modelled from the spec: outcome field of a Span (§3) — the hub's tracing
recorder is not among the checked-in sources. -/
inductive SpanOutcome where
  | success : SpanOutcome
  | failure : SpanOutcome
  | queued : SpanOutcome
deriving DecidableEq

/-- Modelled from the spec: kind field of a Span (§3). -/
inductive SpanKind where
  | toolCall : SpanKind
  | handoff : SpanKind
  | queuedCall : SpanKind
  | replay : SpanKind
deriving DecidableEq

/-- Modelled from the spec: the Span record of §3 — the hub's tracing recorder
is not among the checked-in sources. A span is sealed once ended_at is set. -/
structure Span where
  span_id : Nat
  parent_span_id : Option Nat
  kind : SpanKind
  actor : String
  started_at : Nat
  ended_at : Option Nat
  input_preview : String
  output_preview : String
  outcome : SpanOutcome
deriving DecidableEq

/-- Whether a span carries outcome Success. -/
def Span.isSuccess (sp : Span) : Bool :=
  match sp.outcome with
  | .success => true
  | _ => false

/-- Whether a span carries outcome Failure. -/
def Span.isFailure (sp : Span) : Bool :=
  match sp.outcome with
  | .failure => true
  | _ => false

/-- Modelled from the spec: the ToolCall of §3 — the hub itself is not among
the checked-in sources. Arguments are an ordered mapping of named parameters;
idempotency_key is present for cacheable tools and absent for mutating
ones. -/
structure ToolCall where
  tool_name : String
  arguments : List (String × String)
  requesting_agent_id : String
  session_id : String
  idempotency_key : Option String
deriving DecidableEq

/-- Modelled from the spec: the CacheEntry of §3 — the hub's cache is not
among the checked-in sources. An entry is never served past
created_at + ttl. -/
structure CacheEntry (α : Type) where
  value : α
  created_at : Nat
  ttl : Nat
deriving DecidableEq

/-- First entry bound to key k in an association list. -/
def findEntry {β : Type} (c : List (String × β)) (k : String) : Option β :=
  match c with
  | [] => none
  | (k', v) :: t => if k' = k then some v else findEntry t k

/-- Modelled from the spec: the cache read of §4.1 and §3 — an expired entry
(read past created_at + ttl) is treated as absent, never as
stale-but-usable. -/
def cacheLookup {α : Type} (c : List (String × CacheEntry α)) (k : String)
    (now : Nat) : Option α :=
  match findEntry c k with
  | some e => if now ≤ e.created_at + e.ttl then some e.value else none
  | none => none

/-- Modelled from the spec: cache fill on a cache-miss success (§3
lifecycles); an entry under the same key is replaced, a fresh key is
appended. -/
def cacheInsert {α : Type} (c : List (String × CacheEntry α)) (k : String)
    (e : CacheEntry α) : List (String × CacheEntry α) :=
  match c with
  | [] => [(k, e)]
  | (k', e') :: t =>
    if k' = k then (k, e) :: t else (k', e') :: cacheInsert t k e

/-- Modelled from the spec: the two process-wide operating modes (§3
HealthState) — the hub's health monitor is not among the checked-in
sources. -/
inductive HealthValue where
  | healthy : HealthValue
  | degraded : HealthValue
deriving DecidableEq

/-- Modelled from the spec: the HealthState singleton of §3 with its
hysteresis counters. -/
structure HealthState where
  value : HealthValue
  last_transition_at : Nat
  consecutive_failure_count : Nat
  consecutive_success_count : Nat
deriving DecidableEq

/-- Modelled from the spec: one health-probe observation — whether the probe
at time at succeeded. -/
structure ProbeEvent where
  probed_at : Nat
  ok : Bool
deriving DecidableEq

/-- Modelled from the spec: the probe accounting and hysteresis transition of
§4.2 — a probe failure increments consecutive_failure_count and resets
consecutive_success_count, a success does the inverse; Healthy→Degraded fires
once the failure count reaches fDown, Degraded→Healthy once the success count
reaches fUp. -/
def probeStep (fDown fUp : Nat) (s : HealthState) (p : ProbeEvent) :
    HealthState :=
  if p.ok then
    let c := s.consecutive_success_count + 1
    match s.value with
    | .degraded =>
      if fUp ≤ c then
        ⟨.healthy, p.probed_at, 0, c⟩
      else
        ⟨.degraded, s.last_transition_at, 0, c⟩
    | .healthy => ⟨.healthy, s.last_transition_at, 0, c⟩
  else
    let f := s.consecutive_failure_count + 1
    match s.value with
    | .healthy =>
      if fDown ≤ f then
        ⟨.degraded, p.probed_at, f, 0⟩
      else
        ⟨.healthy, s.last_transition_at, f, 0⟩
    | .degraded => ⟨.degraded, s.last_transition_at, f, 0⟩

/-- Modelled from the spec: the health monitor's probe cycle folded over a
sequence of probe outcomes. -/
def applyProbes (fDown fUp : Nat) (s : HealthState) (ps : List ProbeEvent) :
    HealthState :=
  ps.foldl (probeStep fDown fUp) s

/-- Modelled from the spec: the HealthState at process start — Healthy with
both counters at zero. -/
def initialHealth : HealthState := ⟨.healthy, 0, 0, 0⟩

/-- Length of the trailing run of failed probes in a probe history. -/
def trailingFails (ps : List ProbeEvent) : Nat :=
  ps.foldl (fun n p => if p.ok then 0 else n + 1) 0

/-- Length of the trailing run of successful probes in a probe history. -/
def trailingSuccs (ps : List ProbeEvent) : Nat :=
  ps.foldl (fun n p => if p.ok then n + 1 else 0) 0

/-- Modelled from the spec: the QueuedMessage of §3 — the hub's durable queue
is not among the checked-in sources. -/
structure QueuedMessage where
  sequence_number : Nat
  call : ToolCall
  enqueued_at : Nat
  attempt_count : Nat
deriving DecidableEq

/-- Modelled from the spec: the per-tool cache and queue policy of the static
tool registry (§9): whether the tool is cacheable (read-only) or mutating,
and the per-capability ttl for cacheable results. -/
structure ToolPolicy where
  cacheable : Bool
  mutating : Bool
  ttl : Nat
deriving DecidableEq

/-- Modelled from the spec: what the Router hands back (§4.1 and §6) — a
typed result, a Degraded acknowledgment carrying the assigned sequence
number, or a typed error. -/
inductive RouterOutcome (α : Type) where
  | result (v : α) : RouterOutcome α
  | queuedAck (sequence_number : Nat) : RouterOutcome α
  | failure : RouterOutcome α
deriving DecidableEq

/-- Modelled from the spec: the hub's shared mutable resources the Router
touches (§2): cache, health state, durable queue with its monotonic sequence
counter, and the append-only trace. -/
structure HubState (α : Type) where
  cache : List (String × CacheEntry α)
  health : HealthState
  queue : List QueuedMessage
  nextSeq : Nat
  nextSpanId : Nat
  trace : List Span
deriving DecidableEq

/-- Modelled from the spec: one Router invocation's visible products — its
outcome, the updated hub state, and how many downstream capability
invocations it performed. -/
structure RouterStep (α : Type) where
  outcome : RouterOutcome α
  state : HubState α
  downstreamCalls : Nat
deriving DecidableEq

/-- A sealed span for one Router invocation, at the hub's next span id. -/
def mkSpan {α : Type} (s : HubState α) (tc : ToolCall) (kind : SpanKind)
    (outcome : SpanOutcome) (now : Nat) : Span :=
  ⟨s.nextSpanId, none, kind, tc.requesting_agent_id, now, some now,
   tc.tool_name, "", outcome⟩

/-- Modelled from the spec: the Tool Router of §4.1 and the control flow of
§2 — the hub is not among the checked-in sources. The Router first consults
the cache (hit: return at once, zero downstream invocations), then the
current HealthState: while Healthy it invokes the capability (whose reply is
the dv argument) and fills the cache for cacheable tools; while Degraded a
mutating call is appended to the durable queue once under the next sequence
number and acknowledged, and a read-only call fails immediately. Every path
appends exactly one sealed Span to the trace. -/
def routerInvoke {α : Type} (pol : ToolPolicy) (tc : ToolCall) (now : Nat)
    (dv : α) (s : HubState α) : RouterStep α :=
  let cached := if pol.cacheable then
      match tc.idempotency_key with
      | some k => cacheLookup s.cache k now
      | none => none
    else none
  match cached with
  | some v =>
    { outcome := .result v,
      state := { s with
        nextSpanId := s.nextSpanId + 1,
        trace := s.trace ++ [mkSpan s tc .toolCall .success now] },
      downstreamCalls := 0 }
  | none =>
    match s.health.value with
    | .healthy =>
      let cache' := if pol.cacheable then
          match tc.idempotency_key with
          | some k => cacheInsert s.cache k ⟨dv, now, pol.ttl⟩
          | none => s.cache
        else s.cache
      { outcome := .result dv,
        state := { s with
          cache := cache',
          nextSpanId := s.nextSpanId + 1,
          trace := s.trace ++ [mkSpan s tc .toolCall .success now] },
        downstreamCalls := 1 }
    | .degraded =>
      if pol.mutating then
        { outcome := .queuedAck s.nextSeq,
          state := { s with
            queue := s.queue ++ [⟨s.nextSeq, tc, now, 0⟩],
            nextSeq := s.nextSeq + 1,
            nextSpanId := s.nextSpanId + 1,
            trace := s.trace ++ [mkSpan s tc .queuedCall .queued now] },
          downstreamCalls := 0 }
      else
        { outcome := .failure,
          state := { s with
            nextSpanId := s.nextSpanId + 1,
            trace := s.trace ++ [mkSpan s tc .toolCall .failure now] },
          downstreamCalls := 0 }

/-- Modelled from the spec: how a queued message ends up (§4.3) — replayed to
a successful result, or moved to the dead-letter record after the configured
maximum attempt count. -/
inductive ReplayEnd where
  | replayedOk : ReplayEnd
  | deadLetter : ReplayEnd
deriving DecidableEq

/-- Modelled from the spec: what replaying one queued message produces — the
number of times the call was executed, how it finished, and the spans
emitted while replaying. -/
structure ReplayResult where
  executions : Nat
  finished : ReplayEnd
  spans : List Span
deriving DecidableEq

/-- A sealed replay span for attempt a of a queued message. -/
def mkReplaySpan (m : QueuedMessage) (a : Nat) (outcome : SpanOutcome) :
    Span :=
  ⟨m.sequence_number, none, .replay, m.call.requesting_agent_id, a, some a,
   m.call.tool_name, "", outcome⟩

/-- Modelled from the spec: the replay loop for one queued message (§4.3) —
the hub's replayer is not among the checked-in sources. With r attempts left
the call is executed; on success it finishes at once (a success span), on
failure it is re-enqueued with attempt_count incremented (a failure span) and
retried; with no attempts left it is moved to dead-letter and a Failure Span
is emitted. The oracle gives each attempt's outcome. -/
def replayGo (m : QueuedMessage) (oracle : Nat → Bool) :
    Nat → Nat → ReplayResult
  | 0, a => ⟨0, .deadLetter, [mkReplaySpan m a .failure]⟩
  | r + 1, a =>
    if oracle a then
      ⟨1, .replayedOk, [mkReplaySpan m a .success]⟩
    else
      let rest := replayGo m oracle r (a + 1)
      ⟨rest.executions + 1, rest.finished, mkReplaySpan m a .failure :: rest.spans⟩

/-- Modelled from the spec: full replay of one queued message under the
configured maximum attempt count, starting from its current attempt_count. -/
def replayMessage (maxAttempts : Nat) (oracle : Nat → Bool)
    (m : QueuedMessage) : ReplayResult :=
  replayGo m oracle maxAttempts m.attempt_count

/-- Modelled from the spec: the durable queue built by successive enqueues
(§4.3) — each call is appended with the next value of the single monotonic
sequence counter and attempt_count zero. -/
def buildQueue (startSeq : Nat) : List (ToolCall × Nat) → List QueuedMessage
  | [] => []
  | (c, t) :: rest => ⟨startSeq, c, t, 0⟩ :: buildQueue (startSeq + 1) rest

/-- Number of messages of a given session in a list. -/
def countSession (l : List QueuedMessage) (sid : String) : Nat :=
  (l.filter (fun m => m.call.session_id = sid)).length

/-- Modelled from the spec: the replayer's schedule (§4.3) — messages drain
in queue order; the execution of the message at position i occupies the
half-open slot interval from slotAt i to slotAt i + 1, where slotAt i counts
the earlier same-session messages, so same-session messages run strictly
sequentially while messages of different sessions may share a slot
(worker-pool concurrency). -/
def slotAt (queue : List QueuedMessage) (i : Fin queue.length) : Nat :=
  countSession (queue.take i.val) (queue.get i).call.session_id

/-- Modelled from the spec: result of attempt_handoff (§4.5) — accepted, or
rejected with a reason. -/
inductive HandoffResult where
  | accepted : HandoffResult
  | rejected (reason : String) : HandoffResult
deriving DecidableEq

/-- Modelled from the spec: the observable products of one attempt_handoff
call — its result, the agents it invoked, and the spans it recorded. -/
structure HandoffRun where
  result : HandoffResult
  invoked : List String
  spans : List Span
deriving DecidableEq

/-- Modelled from the spec: the Handoff Coordinator's attempt_handoff (§4.5)
— the hub is not among the checked-in sources. The handoff is accepted only
if (from_agent, to_agent) is a declared edge of the static permitted graph,
in which case to_agent is invoked under a child handoff span; otherwise it
fails with an InvalidHandoff error, records a Failure Span, and invokes
nobody. -/
def attempt_handoff (graph : List (String × String))
    (from_agent to_agent : String) (payload : String)
    (parent : Option Nat) (now : Nat) : HandoffRun :=
  if (from_agent, to_agent) ∈ graph then
    { result := .accepted,
      invoked := [to_agent],
      spans := [⟨now, parent, .handoff, from_agent, now, some now, payload,
                 "", .success⟩] }
  else
    { result := .rejected "InvalidHandoff",
      invoked := [],
      spans := [⟨now, parent, .handoff, from_agent, now, some now, payload,
                 "", .failure⟩] }

end Hub

/-- Hub policy of a cacheable inventory-lookup tool, for the C2 instance. -/
def invPolicy : Hub.ToolPolicy := ⟨true, false, 120⟩

/-- A cacheable inventory ToolCall, for the C2 instance. -/
def invCall : Hub.ToolCall :=
  ⟨"inventory_evaluation", [("product_name", "Shirt-A"), ("quantity", "5")],
   "InventoryAgent", "sess1", some "inv-shirt-a-5"⟩

/-- A fresh Healthy hub state, for the C2 instance. -/
def hubStart : Hub.HubState Nat := ⟨[], ⟨.healthy, 0, 0, 0⟩, [], 1, 1, []⟩

/-- Hub policy of a mutating order tool, for the C1 instance. -/
def mutPolicy : Hub.ToolPolicy := ⟨false, true, 0⟩

/-- A mutating create-order ToolCall, for the C1 instance. -/
def orderCall : Hub.ToolCall :=
  ⟨"create_order", [("total_amount", "4500")], "FinanceAgent", "s1", none⟩

/-- A Degraded hub state, for the C1 instance. -/
def degradedHub : Hub.HubState Nat := ⟨[], ⟨.degraded, 5, 3, 0⟩, [], 1, 1, []⟩

/-- A queued message awaiting replay, for the C1 instance. -/
def sampleMsg : Hub.QueuedMessage := ⟨1, orderCall, 5, 0⟩

/-- A second-session payment ToolCall, for the C4 instance. -/
def payCallOther : Hub.ToolCall :=
  ⟨"process_payment", [("order_id", "7")], "FinanceAgent", "s2", none⟩

/-- A same-session payment ToolCall, for the C4 instance. -/
def payCallSame : Hub.ToolCall :=
  ⟨"process_payment", [("order_id", "9")], "FinanceAgent", "s1", none⟩

/-- Three calls enqueued while Degraded, sessions s1, s2, s1, for the C4
instance. -/
def sampleCalls : List (Hub.ToolCall × Nat) :=
  [(orderCall, 0), (payCallOther, 1), (payCallSame, 2)]

/-- A fully filled AddProduct form, for the C10 instance. -/
def filledForm : Frontend.FormState :=
  ⟨"Shirt-A", "1200", "5", "Men", "Stitched", "Blue", "soft cotton", some 1⟩

/-- A backend product_summary entry with quantity and revenue fields, for the
C9 instance. -/
def sampleItem : Frontend.Json :=
  .obj [("quantity", .num 5), ("revenue", .num 1000)]

/-- The product_summary field list of the sample report, for the C9
instance. -/
def samplePs : List (String × Frontend.Json) := [("Shirt-A", sampleItem)]

/-- The data field list of the sample report, for the C9 instance. -/
def sampleDfs : List (String × Frontend.Json) :=
  [("total_orders", .num 2), ("total_revenue", .num 1000),
   ("product_summary", .obj samplePs)]

/-- A sales-report response whose report field arrived as a JSON string, for
the C9 instance. -/
def sampleReport : Frontend.ReportField :=
  .asString "raw" (.obj [("status", .str "success"),
                         ("data", .obj sampleDfs)])

namespace Frontend

theorem lookupKey_setKey_self (fs : List (String × Json)) (k : String)
    (v : Json) : lookupKey (setKey fs k v) k = some v := by
  induction fs with
  | nil => simp [setKey, lookupKey]
  | cons p t ih =>
    obtain ⟨pk, pv⟩ := p
    by_cases hp : pk = k
    · simp [setKey, hp, lookupKey]
    · rw [setKey, if_neg hp, lookupKey, if_neg hp]
      exact ih

theorem lookupKey_setKey_other (fs : List (String × Json)) (k kk : String)
    (v : Json) (hne : kk ≠ k) :
    lookupKey (setKey fs k v) kk = lookupKey fs kk := by
  induction fs with
  | nil =>
    have hk : k ≠ kk := fun h => hne h.symm
    simp [setKey, lookupKey, if_neg hk]
  | cons p t ih =>
    obtain ⟨pk, pv⟩ := p
    by_cases hp : pk = k
    · subst hp
      have hk : pk ≠ kk := fun h => hne h.symm
      rw [setKey, if_pos rfl, lookupKey, lookupKey, if_neg hk, if_neg hk]
    · rw [setKey, if_neg hp, lookupKey, lookupKey]
      by_cases hpk : pk = kk
      · rw [if_pos hpk, if_pos hpk]
      · rw [if_neg hpk, if_neg hpk]
        exact ih

theorem keys_setKey_of_mem (fs : List (String × Json)) (k : String) (v : Json)
    (h : (lookupKey fs k).isSome) :
    (setKey fs k v).map Prod.fst = fs.map Prod.fst := by
  induction fs with
  | nil => simp [lookupKey] at h
  | cons p t ih =>
    obtain ⟨pk, pv⟩ := p
    by_cases hp : pk = k
    · subst hp
      rw [setKey, if_pos rfl]
      simp
    · rw [lookupKey, if_neg hp] at h
      rw [setKey, if_neg hp]
      simp only [List.map_cons]
      rw [ih h]

theorem lookupKey_map_value (g : Json → Json) (fs : List (String × Json))
    (k : String) :
    lookupKey (fs.map (fun p => (p.1, g p.2))) k = (lookupKey fs k).map g := by
  induction fs with
  | nil => simp [lookupKey]
  | cons p t ih =>
    obtain ⟨pk, pv⟩ := p
    by_cases hp : pk = k
    · simp [lookupKey, hp]
    · simp only [List.map_cons, lookupKey]
      rw [if_neg hp, if_neg hp]
      exact ih

end Frontend

namespace Hub

theorem findEntry_cacheInsert_self {α : Type} (c : List (String × CacheEntry α))
    (k : String) (e : CacheEntry α) :
    findEntry (cacheInsert c k e) k = some e := by
  induction c with
  | nil => simp [cacheInsert, findEntry]
  | cons p t ih =>
    obtain ⟨pk, pe⟩ := p
    by_cases hp : pk = k
    · simp [cacheInsert, hp, findEntry]
    · rw [cacheInsert, if_neg hp, findEntry, if_neg hp]
      exact ih

theorem cacheLookup_some_elim {α : Type} (c : List (String × CacheEntry α))
    (k : String) (t : Nat) (v : α) (h : cacheLookup c k t = some v) :
    ∃ e, findEntry c k = some e ∧ e.value = v ∧ t ≤ e.created_at + e.ttl := by
  unfold cacheLookup at h
  cases hf : findEntry c k with
  | none => rw [hf] at h; exact absurd h (by simp)
  | some e =>
    rw [hf] at h
    dsimp only at h
    by_cases ht : t ≤ e.created_at + e.ttl
    · rw [if_pos ht] at h
      exact ⟨e, rfl, Option.some.inj h, ht⟩
    · rw [if_neg ht] at h
      exact absurd h (by simp)

theorem routerInvoke_cache_hit {α : Type} (pol : ToolPolicy) (tc : ToolCall)
    (now : Nat) (dv : α) (s : HubState α) (k : String) (v : α)
    (hc : pol.cacheable = true) (hk : tc.idempotency_key = some k)
    (hl : cacheLookup s.cache k now = some v) :
    routerInvoke pol tc now dv s =
      ⟨.result v,
       { s with
         nextSpanId := s.nextSpanId + 1,
         trace := s.trace ++ [mkSpan s tc .toolCall .success now] }, 0⟩ := by
  unfold routerInvoke
  simp [hc, hk, hl]

theorem routerInvoke_miss_healthy {α : Type} (pol : ToolPolicy) (tc : ToolCall)
    (now : Nat) (dv : α) (s : HubState α) (k : String)
    (hc : pol.cacheable = true) (hk : tc.idempotency_key = some k)
    (hl : cacheLookup s.cache k now = none) (hh : s.health.value = .healthy) :
    routerInvoke pol tc now dv s =
      ⟨.result dv,
       { s with
         cache := cacheInsert s.cache k ⟨dv, now, pol.ttl⟩,
         nextSpanId := s.nextSpanId + 1,
         trace := s.trace ++ [mkSpan s tc .toolCall .success now] }, 1⟩ := by
  unfold routerInvoke
  simp [hc, hk, hl, hh]

theorem routerInvoke_degraded_mutating {α : Type} (pol : ToolPolicy)
    (tc : ToolCall) (now : Nat) (dv : α) (s : HubState α)
    (hc : pol.cacheable = false) (hd : s.health.value = .degraded)
    (hm : pol.mutating = true) :
    routerInvoke pol tc now dv s =
      ⟨.queuedAck s.nextSeq,
       { s with
         queue := s.queue ++ [⟨s.nextSeq, tc, now, 0⟩],
         nextSeq := s.nextSeq + 1,
         nextSpanId := s.nextSpanId + 1,
         trace := s.trace ++ [mkSpan s tc .queuedCall .queued now] }, 0⟩ := by
  unfold routerInvoke
  simp [hc, hd, hm]

theorem probeStep_fails (fDown fUp : Nat) (s : HealthState) (p : ProbeEvent) :
    (probeStep fDown fUp s p).consecutive_failure_count =
      if p.ok then 0 else s.consecutive_failure_count + 1 := by
  obtain ⟨t, ok⟩ := p
  cases ok <;> cases hv : s.value <;> simp [probeStep, hv] <;>
    first
      | rfl
      | (split <;> rfl)

theorem probeStep_succs (fDown fUp : Nat) (s : HealthState) (p : ProbeEvent) :
    (probeStep fDown fUp s p).consecutive_success_count =
      if p.ok then s.consecutive_success_count + 1 else 0 := by
  obtain ⟨t, ok⟩ := p
  cases ok <;> cases hv : s.value <;> simp [probeStep, hv] <;>
    first
      | rfl
      | (split <;> rfl)

theorem applyProbes_fails_foldl (fDown fUp : Nat) (ps : List ProbeEvent) :
    ∀ s : HealthState,
      (applyProbes fDown fUp s ps).consecutive_failure_count =
        ps.foldl (fun n p => if p.ok then 0 else n + 1)
          s.consecutive_failure_count := by
  induction ps with
  | nil => intro s; rfl
  | cons p t ih =>
    intro s
    show (applyProbes fDown fUp (probeStep fDown fUp s p) t).consecutive_failure_count = _
    rw [ih, probeStep_fails]
    rfl

theorem applyProbes_succs_foldl (fDown fUp : Nat) (ps : List ProbeEvent) :
    ∀ s : HealthState,
      (applyProbes fDown fUp s ps).consecutive_success_count =
        ps.foldl (fun n p => if p.ok then n + 1 else 0)
          s.consecutive_success_count := by
  induction ps with
  | nil => intro s; rfl
  | cons p t ih =>
    intro s
    show (applyProbes fDown fUp (probeStep fDown fUp s p) t).consecutive_success_count = _
    rw [ih, probeStep_succs]
    rfl

theorem applyProbes_fails_trailing (fDown fUp : Nat) (ps : List ProbeEvent) :
    (applyProbes fDown fUp initialHealth ps).consecutive_failure_count =
      trailingFails ps := by
  rw [applyProbes_fails_foldl]
  rfl

theorem applyProbes_succs_trailing (fDown fUp : Nat) (ps : List ProbeEvent) :
    (applyProbes fDown fUp initialHealth ps).consecutive_success_count =
      trailingSuccs ps := by
  rw [applyProbes_succs_foldl]
  rfl

theorem probeStep_flip_down (fDown fUp : Nat) (s : HealthState)
    (p : ProbeEvent) (hv : s.value = .healthy)
    (hd : (probeStep fDown fUp s p).value = .degraded) :
    p.ok = false ∧ fDown ≤ s.consecutive_failure_count + 1 := by
  cases hp : p.ok
  · refine ⟨rfl, ?_⟩
    unfold probeStep at hd
    rw [hp] at hd
    simp only [Bool.false_eq_true, if_false, hv] at hd
    by_cases hth : fDown ≤ s.consecutive_failure_count + 1
    · exact hth
    · rw [if_neg hth] at hd
      exact absurd hd (by simp)
  · exfalso
    unfold probeStep at hd
    rw [hp] at hd
    simp only [if_true, hv] at hd
    exact absurd hd (by simp)

theorem probeStep_flip_up (fDown fUp : Nat) (s : HealthState)
    (p : ProbeEvent) (hv : s.value = .degraded)
    (hh : (probeStep fDown fUp s p).value = .healthy) :
    p.ok = true ∧ fUp ≤ s.consecutive_success_count + 1 := by
  cases hp : p.ok
  · exfalso
    unfold probeStep at hh
    rw [hp] at hh
    simp only [Bool.false_eq_true, if_false, hv] at hh
    exact absurd hh (by simp)
  · refine ⟨rfl, ?_⟩
    unfold probeStep at hh
    rw [hp] at hh
    simp only [if_true, hv] at hh
    by_cases hth : fUp ≤ s.consecutive_success_count + 1
    · exact hth
    · rw [if_neg hth] at hh
      exact absurd hh (by simp)

theorem applyProbes_append (fDown fUp : Nat) (s : HealthState)
    (ps qs : List ProbeEvent) :
    applyProbes fDown fUp s (ps ++ qs) =
      applyProbes fDown fUp (applyProbes fDown fUp s ps) qs := by
  unfold applyProbes
  exact List.foldl_append _ _ _ _

theorem probeStep_ok_of_healthy (fDown fUp : Nat) (s : HealthState)
    (p : ProbeEvent) (hp : p.ok = true) (hv : s.value = .healthy) :
    (probeStep fDown fUp s p).value = .healthy := by
  unfold probeStep
  rw [hp]
  simp only [if_true, hv]

theorem probeStep_fail_stays_healthy (fDown fUp : Nat) (s : HealthState)
    (p : ProbeEvent) (hp : p.ok = false) (hv : s.value = .healthy)
    (hlt : s.consecutive_failure_count + 1 < fDown) :
    (probeStep fDown fUp s p).value = .healthy := by
  unfold probeStep
  rw [hp]
  simp only [Bool.false_eq_true, if_false, hv]
  rw [if_neg (by omega)]

theorem trailingFails_append_fail (ps : List ProbeEvent) (p : ProbeEvent)
    (hp : p.ok = false) :
    trailingFails (ps ++ [p]) = trailingFails ps + 1 := by
  unfold trailingFails
  rw [List.foldl_append]
  simp [hp]

theorem trailingSuccs_append_ok (ps : List ProbeEvent) (p : ProbeEvent)
    (hp : p.ok = true) :
    trailingSuccs (ps ++ [p]) = trailingSuccs ps + 1 := by
  unfold trailingSuccs
  rw [List.foldl_append]
  simp [hp]

theorem buildQueue_length (startSeq : Nat) (calls : List (ToolCall × Nat)) :
    (buildQueue startSeq calls).length = calls.length := by
  induction calls generalizing startSeq with
  | nil => rfl
  | cons c rest ih =>
    obtain ⟨tc, t⟩ := c
    simp [buildQueue, ih]

theorem buildQueue_get_seq (calls : List (ToolCall × Nat)) :
    ∀ (startSeq i : Nat) (h : i < (buildQueue startSeq calls).length),
      ((buildQueue startSeq calls).get ⟨i, h⟩).sequence_number = startSeq + i := by
  induction calls with
  | nil =>
    intro s i h
    simp [buildQueue] at h
  | cons c rest ih =>
    intro s i h
    obtain ⟨tc, t⟩ := c
    cases i with
    | zero => rfl
    | succ n =>
      have hn : n < (buildQueue (s + 1) rest).length := by
        simpa [buildQueue] using h
      have := ih (s + 1) n hn
      show ((buildQueue (s + 1) rest).get ⟨n, hn⟩).sequence_number = _
      rw [this]
      omega

theorem countSession_append (l1 l2 : List QueuedMessage) (sid : String) :
    countSession (l1 ++ l2) sid = countSession l1 sid + countSession l2 sid := by
  unfold countSession
  rw [List.filter_append, List.length_append]

theorem countSession_take_le (l : List QueuedMessage) (sid : String)
    (a b : Nat) (hab : a ≤ b) :
    countSession (l.take a) sid ≤ countSession (l.take b) sid := by
  have hsplit : l.take b = l.take a ++ (l.drop a).take (b - a) := by
    rw [← List.take_add]
    congr 1
    omega
  rw [hsplit, countSession_append]
  omega

theorem countSession_take_succ (l : List QueuedMessage) (i : Fin l.length) :
    countSession (l.take (i.val + 1)) ((l.get i).call.session_id) =
      countSession (l.take i.val) ((l.get i).call.session_id) + 1 := by
  rw [List.take_succ]
  rw [countSession_append]
  have hget : l[i.val]? = some (l.get i) := by
    rw [List.getElem?_eq_getElem i.isLt]
    rfl
  rw [hget]
  simp [countSession]

theorem slotAt_lt (queue : List QueuedMessage) (i j : Fin queue.length)
    (hij : i.val < j.val)
    (hsid : (queue.get i).call.session_id = (queue.get j).call.session_id) :
    slotAt queue i + 1 ≤ slotAt queue j := by
  unfold slotAt
  have h1 : countSession (queue.take (i.val + 1))
      ((queue.get j).call.session_id) =
      countSession (queue.take i.val) ((queue.get j).call.session_id) + 1 := by
    have := countSession_take_succ queue i
    rw [hsid] at this
    exact this
  have h2 : countSession (queue.take (i.val + 1))
      ((queue.get j).call.session_id) ≤
      countSession (queue.take j.val) ((queue.get j).call.session_id) :=
    countSession_take_le queue _ _ _ (by omega)
  rw [hsid]
  omega

theorem replayGo_executions_le (m : QueuedMessage) (oracle : Nat → Bool) :
    ∀ r a : Nat, (replayGo m oracle r a).executions ≤ r := by
  intro r
  induction r with
  | zero => intro a; exact Nat.le_refl 0
  | succ n ih =>
    intro a
    unfold replayGo
    by_cases h : oracle a
    · rw [if_pos h]
      exact Nat.le_add_left 1 n
    · rw [if_neg h]
      dsimp only
      have := ih (a + 1)
      omega

theorem replayGo_deadLetter (m : QueuedMessage) (oracle : Nat → Bool) :
    ∀ r a : Nat, (replayGo m oracle r a).finished = .deadLetter →
      (replayGo m oracle r a).executions = r ∧
      ∃ sp ∈ (replayGo m oracle r a).spans, sp.outcome = .failure := by
  intro r
  induction r with
  | zero =>
    intro a _
    exact ⟨rfl, mkReplaySpan m a .failure, by simp [replayGo], rfl⟩
  | succ n ih =>
    intro a hf
    unfold replayGo at hf ⊢
    by_cases h : oracle a
    · rw [if_pos h] at hf
      exact absurd hf (by simp)
    · rw [if_neg h] at hf ⊢
      dsimp only at hf ⊢
      obtain ⟨he, sp, hsp, ho⟩ := ih (a + 1) hf
      exact ⟨by omega, sp, List.mem_cons_of_mem _ hsp, ho⟩

theorem replayGo_ok_success_once (m : QueuedMessage) (oracle : Nat → Bool) :
    ∀ r a : Nat, (replayGo m oracle r a).finished = .replayedOk →
      ((replayGo m oracle r a).spans.filter Span.isSuccess).length = 1 := by
  intro r
  induction r with
  | zero =>
    intro a h
    exact absurd h (by simp [replayGo])
  | succ n ih =>
    intro a h
    unfold replayGo at h ⊢
    by_cases ho : oracle a
    · rw [if_pos ho]
      rfl
    · rw [if_neg ho] at h ⊢
      dsimp only at h ⊢
      have hhead : Span.isSuccess (mkReplaySpan m a .failure) = false := rfl
      have hfilter : List.filter Span.isSuccess
          (mkReplaySpan m a .failure :: (replayGo m oracle n (a + 1)).spans) =
          List.filter Span.isSuccess (replayGo m oracle n (a + 1)).spans := by
        simp [List.filter_cons, hhead]
      rw [hfilter]
      exact ih (a + 1) h

end Hub


/-- Claim C3: for every CacheEntry e, a cache read performed at any time
strictly greater than e.created_at + e.ttl never returns e's value; the
expired entry behaves exactly like an absent one — the read yields none and
a Healthy Router invocation goes downstream exactly as on a miss. -/
theorem expired_entry_never_served {α : Type}
    (c : List (String × Hub.CacheEntry α)) (k : String) (e : Hub.CacheEntry α)
    (t : Nat) (hfind : Hub.findEntry c k = some e)
    (hexp : e.created_at + e.ttl < t) :
    Hub.cacheLookup c k t = none ∧
    (∀ (pol : Hub.ToolPolicy) (tc : Hub.ToolCall) (dv : α) (s : Hub.HubState α),
      pol.cacheable = true → tc.idempotency_key = some k → s.cache = c →
      s.health.value = .healthy →
      (Hub.routerInvoke pol tc t dv s).downstreamCalls = 1) := by
  have hnone : Hub.cacheLookup c k t = none := by
    unfold Hub.cacheLookup
    rw [hfind]
    dsimp only
    rw [if_neg (by omega)]
  refine ⟨hnone, ?_⟩
  intro pol tc dv s hc hk hsc hh
  rw [Hub.routerInvoke_miss_healthy pol tc t dv s k hc hk (hsc ▸ hnone) hh]

/-- Concrete instance of expired_entry_never_served: an entry created at 0
with ttl 120 is not served by a read at 130. -/
theorem expired_entry_never_served_witness :
    Hub.findEntry [("k1", (⟨5, 0, 120⟩ : Hub.CacheEntry Nat))] "k1" =
      some ⟨5, 0, 120⟩ ∧
    (0 : Nat) + 120 < 130 ∧
    Hub.cacheLookup [("k1", (⟨5, 0, 120⟩ : Hub.CacheEntry Nat))] "k1" 130 =
      none :=
  ⟨rfl, by decide,
   (expired_entry_never_served [("k1", ⟨5, 0, 120⟩)] "k1" ⟨5, 0, 120⟩ 130 rfl
     (by decide)).1⟩

/-- Claim C2: two cacheable Router invocations with the same idempotency_key,
the second issued within the cache entry's TTL window, have the second return
the value the first left cached and perform zero downstream invocations. -/
theorem cache_hit_within_ttl_no_downstream {α : Type} (pol : Hub.ToolPolicy)
    (tc : Hub.ToolCall) (k : String) (t1 t2 : Nat) (dv1 dv2 : α)
    (s : Hub.HubState α) (v1 : α) (e : Hub.CacheEntry α)
    (hc : pol.cacheable = true) (hk : tc.idempotency_key = some k)
    (h1 : (Hub.routerInvoke pol tc t1 dv1 s).outcome = .result v1)
    (he : Hub.findEntry (Hub.routerInvoke pol tc t1 dv1 s).state.cache k =
      some e)
    (ht : t2 ≤ e.created_at + e.ttl) :
    (Hub.routerInvoke pol tc t2 dv2
      (Hub.routerInvoke pol tc t1 dv1 s).state).outcome = .result v1 ∧
    (Hub.routerInvoke pol tc t2 dv2
      (Hub.routerInvoke pol tc t1 dv1 s).state).downstreamCalls = 0 := by
  cases hl : Hub.cacheLookup s.cache k t1 with
  | some v =>
    have hr1 := Hub.routerInvoke_cache_hit pol tc t1 dv1 s k v hc hk hl
    have hv1 : v = v1 := by
      rw [hr1] at h1
      simpa using h1
    have hes : Hub.findEntry s.cache k = some e := by
      rw [hr1] at he
      exact he
    obtain ⟨e', hfe', hv', _⟩ := Hub.cacheLookup_some_elim s.cache k t1 v hl
    have hee : e = e' := by
      rw [hes] at hfe'
      exact Option.some.inj hfe'
    have hl2 : Hub.cacheLookup
        (Hub.routerInvoke pol tc t1 dv1 s).state.cache k t2 = some v1 := by
      rw [hr1]
      show Hub.cacheLookup s.cache k t2 = some v1
      unfold Hub.cacheLookup
      rw [hes]
      dsimp only
      rw [if_pos ht, hee, hv', hv1]
    rw [Hub.routerInvoke_cache_hit pol tc t2 dv2
      (Hub.routerInvoke pol tc t1 dv1 s).state k v1 hc hk hl2]
    exact ⟨rfl, rfl⟩
  | none =>
    cases hh : s.health.value with
    | healthy =>
      have hr1 := Hub.routerInvoke_miss_healthy pol tc t1 dv1 s k hc hk hl hh
      have hv1 : dv1 = v1 := by
        rw [hr1] at h1
        simpa using h1
      have hes : Hub.findEntry
          (Hub.cacheInsert s.cache k ⟨dv1, t1, pol.ttl⟩) k = some e := by
        rw [hr1] at he
        exact he
      have he' := Hub.findEntry_cacheInsert_self s.cache k
        (⟨dv1, t1, pol.ttl⟩ : Hub.CacheEntry α)
      have hee : e = ⟨dv1, t1, pol.ttl⟩ := by
        rw [hes] at he'
        exact Option.some.inj he'
      have hl2 : Hub.cacheLookup
          (Hub.routerInvoke pol tc t1 dv1 s).state.cache k t2 = some v1 := by
        rw [hr1]
        show Hub.cacheLookup
          (Hub.cacheInsert s.cache k ⟨dv1, t1, pol.ttl⟩) k t2 = some v1
        unfold Hub.cacheLookup
        rw [he']
        dsimp only
        rw [if_pos (show t2 ≤ t1 + pol.ttl by rw [hee] at ht; exact ht), hv1]
      rw [Hub.routerInvoke_cache_hit pol tc t2 dv2
        (Hub.routerInvoke pol tc t1 dv1 s).state k v1 hc hk hl2]
      exact ⟨rfl, rfl⟩
    | degraded =>
      exfalso
      unfold Hub.routerInvoke at h1
      simp only [hc, hk, hl, hh] at h1
      cases hm : pol.mutating <;> simp [hm] at h1

/-- Concrete instance of cache_hit_within_ttl_no_downstream: the scenario of
the spec — a miss at t=0 caches the downstream value 42 under ttl 120, and
the repeated call at t=60 returns 42 with zero downstream invocations. -/
theorem cache_hit_within_ttl_no_downstream_witness :
    (Hub.routerInvoke invPolicy invCall 0 42 hubStart).outcome = .result 42 ∧
    (Hub.routerInvoke invPolicy invCall 60 99
      (Hub.routerInvoke invPolicy invCall 0 42 hubStart).state).outcome =
      .result 42 ∧
    (Hub.routerInvoke invPolicy invCall 60 99
      (Hub.routerInvoke invPolicy invCall 0 42 hubStart).state).downstreamCalls
      = 0 := by
  have h := cache_hit_within_ttl_no_downstream invPolicy invCall
    "inv-shirt-a-5" 0 60 42 99 hubStart 42 ⟨42, 0, 120⟩ rfl rfl rfl rfl
    (by decide)
  exact ⟨rfl, h.1, h.2⟩

/-- Claim C6: a handoff attempt along a pair that is not a declared edge of
the static permitted graph is always rejected with an InvalidHandoff error,
records a Failure Span, and invokes no agent (in particular never
to_agent). -/
theorem invalid_handoff_rejected (graph : List (String × String))
    (from_agent to_agent payload : String) (parent : Option Nat) (now : Nat)
    (h : (from_agent, to_agent) ∉ graph) :
    (Hub.attempt_handoff graph from_agent to_agent payload parent now).result
      = .rejected "InvalidHandoff" ∧
    (Hub.attempt_handoff graph from_agent to_agent payload parent now).invoked
      = [] ∧
    ∃ sp,
      (Hub.attempt_handoff graph from_agent to_agent payload parent now).spans
        = [sp] ∧ sp.outcome = .failure := by
  unfold Hub.attempt_handoff
  rw [if_neg h]
  exact ⟨rfl, rfl, _, rfl, rfl⟩

/-- Concrete instance of invalid_handoff_rejected: agent A attempts a handoff
to agent Z while only (A, B) is permitted. -/
theorem invalid_handoff_rejected_witness :
    ("A", "Z") ∉ [("A", "B")] ∧
    (Hub.attempt_handoff [("A", "B")] "A" "Z" "task" none 7).result =
      .rejected "InvalidHandoff" ∧
    (Hub.attempt_handoff [("A", "B")] "A" "Z" "task" none 7).invoked = [] :=
  ⟨by decide,
   (invalid_handoff_rejected [("A", "B")] "A" "Z" "task" none 7 (by decide)).1,
   (invalid_handoff_rejected [("A", "B")] "A" "Z" "task" none 7 (by decide)).2.1⟩

/-- Claim C7: every Router invocation — cache hit, live downstream call, or
Degraded enqueue or read-only failure — appends exactly one Span to the
trace, that Span is sealed (ended_at is set), and the previously recorded
spans are left untouched (append-only trace). -/
theorem router_single_sealed_span {α : Type} (pol : Hub.ToolPolicy)
    (tc : Hub.ToolCall) (now : Nat) (dv : α) (s : Hub.HubState α) :
    ∃ sp : Hub.Span,
      (Hub.routerInvoke pol tc now dv s).state.trace = s.trace ++ [sp] ∧
      sp.ended_at.isSome = true := by
  unfold Hub.routerInvoke
  dsimp only
  repeat' split
  all_goals exact ⟨_, rfl, rfl⟩

/-- Claim C5: HealthState transitions obey hysteresis — a probe success
resets the consecutive failure count and a failure resets the success count;
from the initial Healthy state, a flip to Degraded happens only at a failed
probe with at least fDown trailing consecutive failures, and a flip back to
Healthy only at a successful probe with at least fUp trailing consecutive
successes; in particular, with fDown = 3, a single probe failure (one not
extending a failure streak) followed by a probe success never leaves the
state Degraded. -/
theorem health_hysteresis (fDown fUp : Nat) :
    (∀ (s : Hub.HealthState) (p : Hub.ProbeEvent), p.ok = true →
      (Hub.probeStep fDown fUp s p).consecutive_failure_count = 0) ∧
    (∀ (s : Hub.HealthState) (p : Hub.ProbeEvent), p.ok = false →
      (Hub.probeStep fDown fUp s p).consecutive_success_count = 0) ∧
    (∀ (h : List Hub.ProbeEvent) (p : Hub.ProbeEvent),
      (Hub.applyProbes fDown fUp Hub.initialHealth h).value = .healthy →
      (Hub.applyProbes fDown fUp Hub.initialHealth (h ++ [p])).value =
        .degraded →
      p.ok = false ∧ fDown ≤ Hub.trailingFails (h ++ [p])) ∧
    (∀ (h : List Hub.ProbeEvent) (p : Hub.ProbeEvent),
      (Hub.applyProbes fDown fUp Hub.initialHealth h).value = .degraded →
      (Hub.applyProbes fDown fUp Hub.initialHealth (h ++ [p])).value =
        .healthy →
      p.ok = true ∧ fUp ≤ Hub.trailingSuccs (h ++ [p])) ∧
    (fDown = 3 →
      ∀ (h : List Hub.ProbeEvent) (p1 p2 : Hub.ProbeEvent),
        p1.ok = false → p2.ok = true →
        (Hub.applyProbes fDown fUp Hub.initialHealth h).value = .healthy →
        Hub.trailingFails h = 0 →
        (Hub.applyProbes fDown fUp Hub.initialHealth (h ++ [p1, p2])).value =
          .healthy) := by
  refine ⟨?_, ?_, ?_, ?_, ?_⟩
  · intro s p hp
    rw [Hub.probeStep_fails, if_pos hp]
  · intro s p hp
    rw [Hub.probeStep_succs, if_neg (by simp [hp])]
  · intro h p hH hD
    rw [Hub.applyProbes_append] at hD
    have hstep : (Hub.applyProbes fDown fUp
        (Hub.applyProbes fDown fUp Hub.initialHealth h) [p]).value =
        (Hub.probeStep fDown fUp
          (Hub.applyProbes fDown fUp Hub.initialHealth h) p).value := rfl
    rw [hstep] at hD
    obtain ⟨hp, hle⟩ := Hub.probeStep_flip_down fDown fUp _ p hH hD
    refine ⟨hp, ?_⟩
    rw [Hub.trailingFails_append_fail h p hp]
    rw [Hub.applyProbes_fails_trailing] at hle
    omega
  · intro h p hD hH
    rw [Hub.applyProbes_append] at hH
    have hstep : (Hub.applyProbes fDown fUp
        (Hub.applyProbes fDown fUp Hub.initialHealth h) [p]).value =
        (Hub.probeStep fDown fUp
          (Hub.applyProbes fDown fUp Hub.initialHealth h) p).value := rfl
    rw [hstep] at hH
    obtain ⟨hp, hle⟩ := Hub.probeStep_flip_up fDown fUp _ p hD hH
    refine ⟨hp, ?_⟩
    rw [Hub.trailingSuccs_append_ok h p hp]
    rw [Hub.applyProbes_succs_trailing] at hle
    omega
  · intro h3 h p1 p2 hp1 hp2 hH htf
    subst h3
    rw [Hub.applyProbes_append]
    have hf0 : (Hub.applyProbes 3 fUp Hub.initialHealth h).consecutive_failure_count = 0 := by
      rw [Hub.applyProbes_fails_trailing, htf]
    have h1v : (Hub.probeStep 3 fUp
        (Hub.applyProbes 3 fUp Hub.initialHealth h) p1).value = .healthy :=
      Hub.probeStep_fail_stays_healthy 3 fUp _ p1 hp1 hH (by omega)
    show (Hub.probeStep 3 fUp (Hub.probeStep 3 fUp
      (Hub.applyProbes 3 fUp Hub.initialHealth h) p1) p2).value = .healthy
    exact Hub.probeStep_ok_of_healthy 3 fUp _ p2 hp2 h1v

/-- Concrete instance of health_hysteresis with fDown = 3 and fUp = 2: from
the initial Healthy state, one failed probe followed by one successful probe
leaves the state Healthy. -/
theorem health_hysteresis_witness :
    (Hub.applyProbes 3 2 Hub.initialHealth
      ([] ++ [⟨1, false⟩, ⟨2, true⟩])).value = .healthy :=
  (health_hysteresis 3 2).2.2.2.2 rfl [] ⟨1, false⟩ ⟨2, true⟩ rfl rfl rfl rfl

/-- Claim C4: in a queue built by successive Degraded enqueues, any two
messages of the same session are replayed in enqueue order — the earlier
message carries the strictly smaller sequence_number (drain order is
ascending sequence_number) — and their execution slots are disjoint: the
earlier message's slot interval ends no later than the later message's slot
begins, so no two same-session messages ever execute concurrently. -/
theorem same_session_replay_sequential (startSeq : Nat)
    (calls : List (Hub.ToolCall × Nat))
    (i j : Fin (Hub.buildQueue startSeq calls).length)
    (hij : i.val < j.val)
    (hsid : ((Hub.buildQueue startSeq calls).get i).call.session_id =
      ((Hub.buildQueue startSeq calls).get j).call.session_id) :
    ((Hub.buildQueue startSeq calls).get i).sequence_number <
      ((Hub.buildQueue startSeq calls).get j).sequence_number ∧
    Hub.slotAt (Hub.buildQueue startSeq calls) i + 1 ≤
      Hub.slotAt (Hub.buildQueue startSeq calls) j := by
  constructor
  · have hi := Hub.buildQueue_get_seq calls startSeq i.val i.isLt
    have hj := Hub.buildQueue_get_seq calls startSeq j.val j.isLt
    rw [show (⟨i.val, i.isLt⟩ : Fin (Hub.buildQueue startSeq calls).length) = i
      from rfl] at hi
    rw [show (⟨j.val, j.isLt⟩ : Fin (Hub.buildQueue startSeq calls).length) = j
      from rfl] at hj
    rw [hi, hj]
    omega
  · exact Hub.slotAt_lt _ i j hij hsid

/-- Concrete instance of same_session_replay_sequential: of three queued
calls with sessions s1, s2, s1, the two s1 messages keep their enqueue order
by sequence number and occupy disjoint slots. -/
theorem same_session_replay_sequential_witness :
    (0 : Nat) < 2 ∧
    ((Hub.buildQueue 1 sampleCalls).get ⟨0, by decide⟩).call.session_id =
      ((Hub.buildQueue 1 sampleCalls).get ⟨2, by decide⟩).call.session_id ∧
    ((Hub.buildQueue 1 sampleCalls).get ⟨0, by decide⟩).sequence_number <
      ((Hub.buildQueue 1 sampleCalls).get ⟨2, by decide⟩).sequence_number ∧
    Hub.slotAt (Hub.buildQueue 1 sampleCalls) ⟨0, by decide⟩ + 1 ≤
      Hub.slotAt (Hub.buildQueue 1 sampleCalls) ⟨2, by decide⟩ := by
  have h := same_session_replay_sequential 1 sampleCalls ⟨0, by decide⟩
    ⟨2, by decide⟩ (by decide) rfl
  exact ⟨by decide, rfl, h.1, h.2⟩

/-- Claim C1: a mutating ToolCall routed while HealthState is Degraded is
appended to the durable queue exactly once (one new message, under the next
sequence number) and acknowledged as queued; replaying any queued message
executes it at most maxAttempts times and finishes either replayed-to-success
— with exactly one successful execution — or, after exactly maxAttempts
failed attempts, as a dead-letter with a Failure Span emitted; no third way
of disappearing exists. -/
theorem degraded_mutating_enqueue_replay {α : Type} (pol : Hub.ToolPolicy)
    (tc : Hub.ToolCall) (now : Nat) (dv : α) (s : Hub.HubState α)
    (maxAttempts : Nat) (oracle : Nat → Bool)
    (hm : pol.mutating = true) (hc : pol.cacheable = false)
    (hd : s.health.value = .degraded) :
    (Hub.routerInvoke pol tc now dv s).state.queue =
      s.queue ++ [⟨s.nextSeq, tc, now, 0⟩] ∧
    (Hub.routerInvoke pol tc now dv s).outcome = .queuedAck s.nextSeq ∧
    (∀ m : Hub.QueuedMessage,
      (Hub.replayMessage maxAttempts oracle m).executions ≤ maxAttempts ∧
      ((Hub.replayMessage maxAttempts oracle m).finished = .replayedOk ∨
        (Hub.replayMessage maxAttempts oracle m).finished = .deadLetter) ∧
      ((Hub.replayMessage maxAttempts oracle m).finished = .replayedOk →
        ((Hub.replayMessage maxAttempts oracle m).spans.filter
          Hub.Span.isSuccess).length = 1) ∧
      ((Hub.replayMessage maxAttempts oracle m).finished = .deadLetter →
        (Hub.replayMessage maxAttempts oracle m).executions = maxAttempts ∧
        ∃ sp ∈ (Hub.replayMessage maxAttempts oracle m).spans,
          sp.outcome = .failure)) := by
  refine ⟨?_, ?_, ?_⟩
  · rw [Hub.routerInvoke_degraded_mutating pol tc now dv s hc hd hm]
  · rw [Hub.routerInvoke_degraded_mutating pol tc now dv s hc hd hm]
  · intro m
    refine ⟨Hub.replayGo_executions_le m oracle maxAttempts m.attempt_count,
      ?_, ?_, ?_⟩
    · cases hfin : (Hub.replayMessage maxAttempts oracle m).finished
      · exact Or.inl rfl
      · exact Or.inr rfl
    · exact Hub.replayGo_ok_success_once m oracle maxAttempts m.attempt_count
    · exact Hub.replayGo_deadLetter m oracle maxAttempts m.attempt_count

/-- Concrete instance of degraded_mutating_enqueue_replay: a mutating
create-order call in a Degraded hub is enqueued once under sequence number 1
and acknowledged; replaying the queued message under an oracle that succeeds
from the third attempt stays within 3 attempts. -/
theorem degraded_mutating_enqueue_replay_witness :
    (Hub.routerInvoke mutPolicy orderCall 6 0 degradedHub).state.queue =
      degradedHub.queue ++ [⟨degradedHub.nextSeq, orderCall, 6, 0⟩] ∧
    (Hub.routerInvoke mutPolicy orderCall 6 0 degradedHub).outcome =
      .queuedAck 1 ∧
    (Hub.replayMessage 3 (fun n => 2 ≤ n) sampleMsg).executions ≤ 3 := by
  have h := degraded_mutating_enqueue_replay mutPolicy orderCall 6 0
    degradedHub 3 (fun n => 2 ≤ n) rfl rfl rfl
  exact ⟨h.1, h.2.1, (h.2.2 sampleMsg).1⟩

/-- Claim C9: for every fetched sales report — whether the report field
arrived as a JSON string or as an already-parsed object — the stored report's
data.product_summary keeps every product name as its key, maps each entry to
total_quantity equal to the backend entry's quantity field and total_sales
equal to its revenue field, and every other field of the parsed report data
(and of the parsed report itself) is passed through unchanged. -/
theorem fetchReport_product_summary_format (rf : Frontend.ReportField)
    (dfs ps : List (String × Frontend.Json))
    (hd : rf.parsed.getField "data" = Frontend.Json.obj dfs)
    (hps : Frontend.lookupKey dfs "product_summary" =
      some (Frontend.Json.obj ps)) :
    ((Frontend.fetchReport rf).getField "data").getField "product_summary" =
      Frontend.Json.obj
        (ps.map (fun p => (p.1, Frontend.formatSummaryItem p.2))) ∧
    (∀ name, Frontend.lookupKey
        (ps.map (fun p => (p.1, Frontend.formatSummaryItem p.2))) name =
      (Frontend.lookupKey ps name).map Frontend.formatSummaryItem) ∧
    (ps.map (fun p => (p.1, Frontend.formatSummaryItem p.2))).map Prod.fst =
      ps.map Prod.fst ∧
    (∀ k, k ≠ "product_summary" →
      Frontend.lookupKey
        (Frontend.jsonEntries ((Frontend.fetchReport rf).getField "data")) k =
      Frontend.lookupKey dfs k) ∧
    (∀ k, k ≠ "data" →
      Frontend.lookupKey (Frontend.jsonEntries (Frontend.fetchReport rf)) k =
      Frontend.lookupKey (Frontend.jsonEntries rf.parsed) k) := by
  have hgps : (rf.parsed.getField "data").getField "product_summary" =
      Frontend.Json.obj ps := by
    rw [hd]
    show Frontend.Json.getField (Frontend.Json.obj dfs) "product_summary" = _
    unfold Frontend.Json.getField
    dsimp only
    rw [hps]
  have hjd : Frontend.jsonEntries (rf.parsed.getField "data") = dfs := by
    rw [hd]
    rfl
  have hfr : Frontend.fetchReport rf =
      Frontend.Json.obj (Frontend.setKey (Frontend.jsonEntries rf.parsed)
        "data" (Frontend.Json.obj (Frontend.setKey dfs "product_summary"
          (Frontend.Json.obj (ps.map
            (fun p => (p.1, Frontend.formatSummaryItem p.2))))))) := by
    unfold Frontend.fetchReport
    dsimp only
    rw [hgps, hjd]
    rfl
  have hdata : (Frontend.fetchReport rf).getField "data" =
      Frontend.Json.obj (Frontend.setKey dfs "product_summary"
        (Frontend.Json.obj (ps.map
          (fun p => (p.1, Frontend.formatSummaryItem p.2))))) := by
    rw [hfr]
    unfold Frontend.Json.getField
    dsimp only
    rw [Frontend.lookupKey_setKey_self]
  refine ⟨?_, fun name => Frontend.lookupKey_map_value _ ps name, by simp,
    ?_, ?_⟩
  · rw [hdata]
    unfold Frontend.Json.getField
    dsimp only
    rw [Frontend.lookupKey_setKey_self]
  · intro k hk
    rw [hdata]
    show Frontend.lookupKey (Frontend.setKey dfs "product_summary" _) k = _
    exact Frontend.lookupKey_setKey_other _ _ _ _ hk
  · intro k hk
    rw [hfr]
    show Frontend.lookupKey
      (Frontend.setKey (Frontend.jsonEntries rf.parsed) "data" _) k = _
    exact Frontend.lookupKey_setKey_other _ _ _ _ hk

/-- Concrete instance of fetchReport_product_summary_format: a report
arriving as a JSON string with one product of quantity 5 and revenue 1000 is
displayed with total_quantity 5 and total_sales 1000 under the same product
name. -/
theorem fetchReport_product_summary_format_witness :
    sampleReport.parsed.getField "data" = Frontend.Json.obj sampleDfs ∧
    Frontend.lookupKey sampleDfs "product_summary" =
      some (Frontend.Json.obj samplePs) ∧
    ((Frontend.fetchReport sampleReport).getField "data").getField
        "product_summary" =
      Frontend.Json.obj [("Shirt-A", Frontend.Json.obj
        [("total_quantity", Frontend.Json.num 5),
         ("total_sales", Frontend.Json.num 1000)])] := by
  have h := fetchReport_product_summary_format sampleReport sampleDfs samplePs
    rfl rfl
  exact ⟨rfl, rfl, h.1⟩

/-- Claim C10: handleSubmit of the AddProduct page sends no POST and leaves
the form unchanged whenever the name is empty, the price is empty, or no
image is selected; with all three present the POST is sent, and the form is
reset to the initial all-empty values exactly when the response is
HTTP-ok. -/
theorem handleSubmit_guard_and_reset (form : Frontend.FormState)
    (resp : Frontend.SubmitResponse) :
    ((form.name = "" ∨ form.price = "" ∨ form.image = none) →
      Frontend.handleSubmit form resp = (false, form)) ∧
    (form.name ≠ "" → form.price ≠ "" → form.image ≠ none →
      (Frontend.handleSubmit form resp).1 = true ∧
      ((Frontend.handleSubmit form resp).2 = Frontend.initialForm ↔
        resp = .ok)) := by
  constructor
  · intro h
    unfold Frontend.handleSubmit
    rw [if_pos h]
  · intro hn hp hi
    have hg : ¬(form.name = "" ∨ form.price = "" ∨ form.image = none) :=
      fun h => h.elim hn (fun h' => h'.elim hp hi)
    unfold Frontend.handleSubmit
    rw [if_neg hg]
    cases resp with
    | ok => exact ⟨rfl, by simp⟩
    | httpError =>
      refine ⟨rfl, ?_, ?_⟩
      · intro hEq
        dsimp only at hEq
        exfalso
        apply hi
        show form.image = none
        rw [hEq]
        rfl
      · intro hc
        exact absurd hc (by simp)
    | networkError =>
      refine ⟨rfl, ?_, ?_⟩
      · intro hEq
        dsimp only at hEq
        exfalso
        apply hi
        show form.image = none
        rw [hEq]
        rfl
      · intro hc
        exact absurd hc (by simp)

/-- Concrete instance of handleSubmit_guard_and_reset: the empty form is
rejected without a POST, while a fully filled form POSTs and is reset on an
HTTP-ok response. -/
theorem handleSubmit_guard_and_reset_witness :
    Frontend.handleSubmit Frontend.initialForm .ok =
      (false, Frontend.initialForm) ∧
    (Frontend.handleSubmit filledForm .ok).1 = true ∧
    (Frontend.handleSubmit filledForm .ok).2 = Frontend.initialForm := by
  refine ⟨(handleSubmit_guard_and_reset Frontend.initialForm .ok).1
    (Or.inl rfl), ?_, ?_⟩
  · exact ((handleSubmit_guard_and_reset filledForm .ok).2 (by decide)
      (by decide) (by decide)).1
  · exact (((handleSubmit_guard_and_reset filledForm .ok).2 (by decide)
      (by decide) (by decide)).2).mpr rfl

/-- Claim C8 counterexample: the failure path of fetchCampaigns on a thrown
fetch sets the network error but records zero Spans — a failure path of the
system that produces no Span with outcome Failure. -/
theorem fetchCampaigns_failure_no_span :
    Frontend.Effect.setError "network_error" ∈
      Frontend.fetchCampaignsEffects .thrown ∧
    Frontend.spanCount (Frontend.fetchCampaignsEffects .thrown) = 0 := by
  constructor
  · simp [Frontend.fetchCampaignsEffects]
  · rfl

/-- Claim C8 amended: no frontend fetch failure is silently swallowed at the
user-interface level — every failure path of fetchCampaigns and fetchReport
sets the error state (and fetchReport also raises an error toast) — but these
handlers emit no Span at all, so no Failure Span is produced for them. -/
theorem frontend_failure_sets_error_no_span :
    (∀ r, Frontend.spanCount (Frontend.fetchCampaignsEffects r) = 0) ∧
    (∀ r, Frontend.spanCount (Frontend.fetchReportEffects r) = 0) ∧
    Frontend.Effect.setError "network_error" ∈
      Frontend.fetchCampaignsEffects .thrown ∧
    (∀ d, Frontend.isSuccessStatus d = false →
      Frontend.Effect.setError "fetch_fail" ∈
        Frontend.fetchCampaignsEffects (.json d)) ∧
    Frontend.Effect.setError "network_error" ∈
      Frontend.fetchReportEffects .thrown ∧
    Frontend.Effect.toastError "network_error" ∈
      Frontend.fetchReportEffects .thrown := by
  refine ⟨?_, ?_, by simp [Frontend.fetchCampaignsEffects], ?_,
    by simp [Frontend.fetchReportEffects],
    by simp [Frontend.fetchReportEffects]⟩
  · intro r
    cases r with
    | json d =>
      unfold Frontend.fetchCampaignsEffects Frontend.spanCount
      dsimp only
      by_cases h : Frontend.isSuccessStatus d
      · rw [if_pos h]
        rfl
      · rw [if_neg h]
        rfl
    | thrown => rfl
  · intro r
    cases r with
    | json rf => rfl
    | thrown => rfl
  · intro d hd
    unfold Frontend.fetchCampaignsEffects
    dsimp only
    rw [if_neg (by rw [hd]; exact Bool.false_ne_true)]
    simp

/-- Concrete instance of frontend_failure_sets_error_no_span: a response with
status distinct from success makes fetchCampaigns set the fetch-failure
error, emitting no Span. -/
theorem frontend_failure_sets_error_no_span_witness :
    Frontend.isSuccessStatus
      (Frontend.Json.obj [("status", Frontend.Json.str "error")]) = false ∧
    Frontend.Effect.setError "fetch_fail" ∈
      Frontend.fetchCampaignsEffects
        (.json (Frontend.Json.obj [("status", Frontend.Json.str "error")])) :=
  ⟨rfl, (frontend_failure_sets_error_no_span).2.2.2.1
    (Frontend.Json.obj [("status", Frontend.Json.str "error")]) rfl⟩
